import Mathlib

/-!
Verification of the exec allowlist / safe-bin policy evaluator
(module exec-approvals-allowlist of the openclaw repository).

The TypeScript module is shallowly embedded: each exported function is
translated to a computable Lean definition operating on explicit data.
External collaborators (shell analysis, allowlist matching, path
resolution, trust checks, platform detection) are out of the module's
scope and are passed in as an explicit bundle of functions; the ambient
process platform read by the module is passed as an explicit argument.
-/

/-- Character-list based startsWith, the semantics of the host language
string startsWith used by the source. -/
def strStartsWith (s p : String) : Bool :=
  List.isPrefixOf p.data s.data

/-- Whitespace trimming on both ends, the semantics of string trim
used by the source. -/
def trimStr (s : String) : String :=
  String.mk (((s.data.dropWhile Char.isWhitespace).reverse.dropWhile Char.isWhitespace).reverse)

/-- Per-character lowercasing, the semantics of toLowerCase used by
the source on ASCII names. -/
def toLowerStr (s : String) : String :=
  String.mk (s.data.map Char.toLower)

/-- Index of the first occurrence of a character, the semantics of
string indexOf restricted to found/not-found plus position. -/
def firstIdxOf (c : Char) : List Char → Option Nat
  | [] => none
  | a :: as =>
    if a = c then some 0
    else match firstIdxOf c as with
      | some i => some (i + 1)
      | none => none

/-- Drive-letter prefix test: a letter, then a colon, then a slash or
backslash (the regex of isPathLikeToken in the source). -/
def hasDriveLetterPrefix (s : String) : Bool :=
  match s.data with
  | a :: b :: c :: _ => a.isAlpha && b = ':' && (c = '/' || c = '\\')
  | _ => false

/-- Translation of isPathLikeToken from the source: trimmed token is
non-empty, not the stdin dash, and carries an explicit path prefix. -/
def isPathLikeToken (value : String) : Bool :=
  if trimStr value = "" then false
  else if trimStr value = "-" then false
  else
    strStartsWith (trimStr value) "./" || strStartsWith (trimStr value) "../" ||
    strStartsWith (trimStr value) "~" || strStartsWith (trimStr value) "/" ||
    hasDriveLetterPrefix (trimStr value)

/-- Translation of hasGlobToken from the source: token contains one of
the glob metacharacters. -/
def hasGlobToken (value : String) : Bool :=
  value.data.any (fun c => c = '*' || c = '?' || c = '[' || c = ']')

/-- Translation of isSafeLiteralToken from the source. -/
def isSafeLiteralToken (value : String) : Bool :=
  if value = "" ∨ value = "-" then true
  else !hasGlobToken value && !isPathLikeToken value

/-- Safe-bin usage profile, mirroring the SafeBinProfile type of the
source; absent optional fields become none / empty lists. -/
structure SafeBinProfile where
  minPositional : Option Nat
  maxPositional : Option Nat
  valueFlags : List String
  blockedFlags : List String
deriving DecidableEq

/-- Generic fallback profile (SAFE_BIN_GENERIC_PROFILE in the source). -/
def SAFE_BIN_GENERIC_PROFILE : SafeBinProfile := ⟨none, none, [], []⟩

/-- Profile of jq in SAFE_BIN_PROFILES. -/
def jqProfile : SafeBinProfile :=
  ⟨none, some 1,
   ["--arg", "--argjson", "--argstr", "--argfile", "--rawfile", "--slurpfile",
    "--from-file", "--library-path", "-L", "-f"],
   ["--argfile", "--rawfile", "--slurpfile", "--from-file", "--library-path", "-L", "-f"]⟩

/-- Profile of grep in SAFE_BIN_PROFILES. -/
def grepProfile : SafeBinProfile :=
  ⟨none, some 1,
   ["--regexp", "--file", "--max-count", "--after-context", "--before-context",
    "--context", "--devices", "--directories", "--binary-files", "--exclude",
    "--exclude-from", "--include", "--label", "-e", "-f", "-m", "-A", "-B", "-C",
    "-D", "-d"],
   ["--file", "--exclude-from", "--dereference-recursive", "--directories",
    "--recursive", "-f", "-d", "-r", "-R"]⟩

/-- Profile of cut in SAFE_BIN_PROFILES. -/
def cutProfile : SafeBinProfile :=
  ⟨none, some 0,
   ["--bytes", "--characters", "--fields", "--delimiter", "--output-delimiter",
    "-b", "-c", "-f", "-d"],
   []⟩

/-- Profile of sort in SAFE_BIN_PROFILES. -/
def sortProfile : SafeBinProfile :=
  ⟨none, some 0,
   ["--key", "--field-separator", "--buffer-size", "--temporary-directory",
    "--compress-program", "--parallel", "--batch-size", "--random-source",
    "--files0-from", "--output", "-k", "-t", "-S", "-T", "-o"],
   ["--files0-from", "--output", "-o"]⟩

/-- Profile of uniq in SAFE_BIN_PROFILES. -/
def uniqProfile : SafeBinProfile :=
  ⟨none, some 0,
   ["--skip-fields", "--skip-chars", "--check-chars", "--group", "-f", "-s", "-w"],
   []⟩

/-- Profile of head in SAFE_BIN_PROFILES. -/
def headProfile : SafeBinProfile :=
  ⟨none, some 0, ["--lines", "--bytes", "-n", "-c"], []⟩

/-- Profile of tail in SAFE_BIN_PROFILES. -/
def tailProfile : SafeBinProfile :=
  ⟨none, some 0,
   ["--lines", "--bytes", "--sleep-interval", "--max-unchanged-stats", "--pid",
    "-n", "-c"],
   []⟩

/-- Profile of tr in SAFE_BIN_PROFILES. -/
def trProfile : SafeBinProfile := ⟨some 1, some 2, [], []⟩

/-- Profile of wc in SAFE_BIN_PROFILES. -/
def wcProfile : SafeBinProfile := ⟨none, some 0, ["--files0-from"], ["--files0-from"]⟩

/-- Lookup in the SAFE_BIN_PROFILES record of the source. -/
def SAFE_BIN_PROFILES (name : String) : Option SafeBinProfile :=
  if name = "jq" then some jqProfile
  else if name = "grep" then some grepProfile
  else if name = "cut" then some cutProfile
  else if name = "sort" then some sortProfile
  else if name = "uniq" then some uniqProfile
  else if name = "head" then some headProfile
  else if name = "tail" then some tailProfile
  else if name = "tr" then some trProfile
  else if name = "wc" then some wcProfile
  else none

/-- The profile used for a given executable name: the registered one or
the generic fallback (the ?? in the source). -/
def profileFor (execName : String) : SafeBinProfile :=
  match SAFE_BIN_PROFILES execName with
  | some pr => pr
  | none => SAFE_BIN_GENERIC_PROFILE

/-- Long flag name: the part of a double-dash token before the first
inline equal sign at a positive index (slice at indexOf in the source). -/
def longFlagName (token : String) : String :=
  match firstIdxOf '=' token.data with
  | some i => if 0 < i then String.mk (List.take i token.data) else token
  | none => token

/-- Long flag inline value: the part after the first equal sign when it
sits at a positive index. -/
def longFlagValue? (token : String) : Option String :=
  match firstIdxOf '=' token.data with
  | some i => if 0 < i then some (String.mk (List.drop (i + 1) token.data)) else none
  | none => none

/-- Trailing scan of tokens after the double-dash terminator: every
token other than empty or dash must be a safe literal and is collected
as positional (the inner j loop of validateSafeBinArgv). -/
def scanTrailingPositionals : List String → Option (List String)
  | [] => some []
  | r :: rs =>
    if r = "" ∨ r = "-" then scanTrailingPositionals rs
    else if isSafeLiteralToken r then
      match scanTrailingPositionals rs with
      | some ps => some (r :: ps)
      | none => none
    else none

/-- Outcome of scanning a short-flag cluster (the inner j loop over the
characters of a dash token in validateSafeBinArgv). -/
inductive ClusterScan where
  | reject : ClusterScan
  | noValue : ClusterScan
  | inlineValue (value : String) : ClusterScan
  | nextValue : ClusterScan
deriving DecidableEq

/-- Scan of the characters of a short-flag cluster: a blocked character
rejects; the first value-flag character consumes the cluster remainder
when non-empty (validated as a safe literal) or requests the next token. -/
def scanShortCluster (valueFlags blockedFlags : List String) : List Char → ClusterScan
  | [] => ClusterScan.noValue
  | c :: cs =>
    if String.mk ['-', c] ∈ blockedFlags then ClusterScan.reject
    else if String.mk ['-', c] ∈ valueFlags then
      if String.mk cs = "" then ClusterScan.nextValue
      else if isSafeLiteralToken (String.mk cs) then ClusterScan.inlineValue (String.mk cs)
      else ClusterScan.reject
    else scanShortCluster valueFlags blockedFlags cs

/-- The token scan loop of validateSafeBinArgv. Returns none on
rejection, otherwise the collected positional tokens together with the
values consumed by flags (inline or as following tokens). -/
def scanSafeBinArgs (valueFlags blockedFlags : List String) :
    List String → Option (List String × List String)
  | [] => some ([], [])
  | token :: rest =>
    if token = "" then scanSafeBinArgs valueFlags blockedFlags rest
    else if token = "--" then
      match scanTrailingPositionals rest with
      | some ps => some (ps, [])
      | none => none
    else if token = "-" then scanSafeBinArgs valueFlags blockedFlags rest
    else if !strStartsWith token "-" then
      if isSafeLiteralToken token then
        match scanSafeBinArgs valueFlags blockedFlags rest with
        | some (ps, vs) => some (token :: ps, vs)
        | none => none
      else none
    else if strStartsWith token "--" then
      if longFlagName token ∈ blockedFlags then none
      else
        match longFlagValue? token with
        | some v =>
          if isSafeLiteralToken v then
            match scanSafeBinArgs valueFlags blockedFlags rest with
            | some (ps, vs) => some (ps, v :: vs)
            | none => none
          else none
        | none =>
          if longFlagName token ∈ valueFlags then
            match rest with
            | [] => none
            | v :: rest2 =>
              if v = "" then none
              else if isSafeLiteralToken v then
                match scanSafeBinArgs valueFlags blockedFlags rest2 with
                | some (ps, vs) => some (ps, v :: vs)
                | none => none
              else none
          else scanSafeBinArgs valueFlags blockedFlags rest
    else
      match scanShortCluster valueFlags blockedFlags (List.drop 1 token.data) with
      | ClusterScan.reject => none
      | ClusterScan.noValue =>
        if hasGlobToken token then none
        else scanSafeBinArgs valueFlags blockedFlags rest
      | ClusterScan.inlineValue v =>
        match scanSafeBinArgs valueFlags blockedFlags rest with
        | some (ps, vs) => some (ps, v :: vs)
        | none => none
      | ClusterScan.nextValue =>
        match rest with
        | [] => none
        | v :: rest2 =>
          if v = "" then none
          else if isSafeLiteralToken v then
            match scanSafeBinArgs valueFlags blockedFlags rest2 with
            | some (ps, vs) => some (ps, v :: vs)
            | none => none
          else none

/-- Translation of validateSafeBinArgv from the source: scan the
argument vector, then enforce the positional-count bounds of the
profile. -/
def validateSafeBinArgv (args : List String) (profile : SafeBinProfile) : Bool :=
  match scanSafeBinArgs profile.valueFlags profile.blockedFlags args with
  | none => false
  | some (positional, _) =>
    if positional.length < profile.minPositional.getD 0 then false
    else
      match profile.maxPositional with
      | some m => decide (positional.length ≤ m)
      | none => true

/-- Opaque allowlist entry descriptor (ExecAllowlistEntry): the module
never inspects it beyond passing it to the external matcher. -/
structure ExecAllowlistEntry where
  raw : String
deriving DecidableEq

/-- External command resolution (CommandResolution): both fields can be
absent or empty, which the module treats as missing. -/
structure CommandResolution where
  executableName : Option String
  resolvedPath : Option String
deriving DecidableEq

/-- One pipeline segment (ExecCommandSegment). -/
structure ExecCommandSegment where
  argv : List String
  resolution : Option CommandResolution
deriving DecidableEq

/-- Parser output for one command (ExecCommandAnalysis); the chains
field is present (some) exactly when the host-language value is set,
including the case of a present but empty list. -/
structure ExecCommandAnalysis where
  ok : Bool
  segments : List ExecCommandSegment
  chains : Option (List (List ExecCommandSegment))
deriving DecidableEq

/-- The non-null values of ExecSegmentSatisfiedBy. -/
inductive SatBy where
  | allowlist : SatBy
  | safeBins : SatBy
  | skills : SatBy
deriving DecidableEq

/-- Result record of evaluateExecAllowlist (ExecAllowlistEvaluation). -/
structure ExecAllowlistEvaluation where
  allowlistSatisfied : Bool
  allowlistMatches : List ExecAllowlistEntry
  segmentSatisfiedBy : List (Option SatBy)
deriving DecidableEq

/-- Result record of evaluateShellAllowlist (ExecAllowlistAnalysis). -/
structure ExecAllowlistAnalysis where
  analysisOk : Bool
  allowlistSatisfied : Bool
  allowlistMatches : List ExecAllowlistEntry
  segments : List ExecCommandSegment
  segmentSatisfiedBy : List (Option SatBy)
deriving DecidableEq

/-- The external collaborators imported by the module from
exec-approvals-analysis, exec-safe-bin-trust and the path library; their
algorithms are outside the module and are taken as given functions. -/
structure Externals where
  analyzeShellCommand : String → Option String → Option (List (String × String)) →
    Option String → ExecCommandAnalysis
  splitCommandChain : String → Option (List String)
  matchAllowlist : List ExecAllowlistEntry → Option CommandResolution →
    Option ExecAllowlistEntry
  resolveAllowlistCandidatePath : Option CommandResolution → Option String → Option String
  isTrustedSafeBinPath : String → Option (List String) → Bool
  isWindowsPlatform : Option String → Bool
  pathParseName : String → String

/-- Translation of isSafeBinUsage from the source. The first argument
after the externals is the ambient process platform that the source
reads from process.platform. Absent or empty executable name and
resolved path both fail, matching host-language falsiness. -/
def isSafeBinUsage (ext : Externals) (processPlatform : String) (argv : List String)
    (resolution : Option CommandResolution) (safeBins : List String)
    (cwd : Option String) (fileExists : Option (String → Bool))
    (trustedSafeBinDirs : Option (List String)) : Bool :=
  if ext.isWindowsPlatform (some processPlatform) then false
  else if safeBins.isEmpty then false
  else
    match resolution with
    | none => false
    | some r =>
      match r.executableName with
      | none => false
      | some en =>
        if toLowerStr en = "" then false
        else
          if !(safeBins.contains (toLowerStr en) ||
               ((processPlatform == "win32") &&
                safeBins.contains (ext.pathParseName (toLowerStr en)))) then false
          else
            match r.resolvedPath with
            | none => false
            | some rp =>
              if rp = "" then false
              else if !(ext.isTrustedSafeBinPath rp trustedSafeBinDirs) then false
              else validateSafeBinArgv (argv.drop 1) (profileFor (toLowerStr en))

/-- Parameters shared by evaluateSegments and its callers. -/
structure SegmentEvalParams where
  allowlist : List ExecAllowlistEntry
  safeBins : List String
  cwd : Option String
  trustedSafeBinDirs : Option (List String)
  skillBins : Option (List String)
  autoAllowSkills : Option Bool

/-- The candidate-resolution allowlist match for one segment: the
resolved path is replaced by the candidate path when both the candidate
and the resolution are present and the candidate is non-empty. -/
def segmentMatch (ext : Externals) (p : SegmentEvalParams) (seg : ExecCommandSegment) :
    Option ExecAllowlistEntry :=
  let candidatePath := ext.resolveAllowlistCandidatePath seg.resolution p.cwd
  let candidateResolution :=
    match candidatePath, seg.resolution with
    | some cp, some r => if cp = "" then seg.resolution else some ⟨r.executableName, some cp⟩
    | _, _ => seg.resolution
  ext.matchAllowlist p.allowlist candidateResolution

/-- Skill-bin allowance for one segment: only when autoAllowSkills is
exactly true, the skill-bin set is non-empty, and the executable name is
present, non-empty, and a member. -/
def segmentSkillAllow (p : SegmentEvalParams) (seg : ExecCommandSegment) : Bool :=
  ((p.autoAllowSkills == some true) &&
    decide (0 < (match p.skillBins with | some bins => bins.length | none => 0))) &&
  (match seg.resolution with
   | some r =>
     match r.executableName with
     | some en =>
       if en = "" then false
       else match p.skillBins with
         | some bins => bins.contains en
         | none => false
     | none => false
   | none => false)

/-- The attribution of one segment: allowlist match first, then the
safe-bin gate, then skills, else none. -/
def segmentSatBy (ext : Externals) (processPlatform : String) (p : SegmentEvalParams)
    (seg : ExecCommandSegment) : Option SatBy :=
  match segmentMatch ext p seg with
  | some _ => some SatBy.allowlist
  | none =>
    if isSafeBinUsage ext processPlatform seg.argv seg.resolution p.safeBins p.cwd none
        p.trustedSafeBinDirs then some SatBy.safeBins
    else if segmentSkillAllow p seg then some SatBy.skills
    else none

/-- Result of evaluateSegments. -/
structure SegEvalResult where
  satisfied : Bool
  foundMatches : List ExecAllowlistEntry
  segmentSatisfiedBy : List (Option SatBy)
deriving DecidableEq

/-- Translation of evaluateSegments from the source: the every-loop
short-circuits at the first segment whose attribution is none; matches
found before that point (including at the failing segment, where there
is never one) are kept in the partial result. -/
def evaluateSegments (ext : Externals) (processPlatform : String) (p : SegmentEvalParams) :
    List ExecCommandSegment → SegEvalResult
  | [] => ⟨true, [], []⟩
  | seg :: rest =>
    let mList := match segmentMatch ext p seg with | some e => [e] | none => []
    match segmentSatBy ext processPlatform p seg with
    | some b =>
      let r := evaluateSegments ext processPlatform p rest
      ⟨r.satisfied, mList ++ r.foundMatches, some b :: r.segmentSatisfiedBy⟩
    | none => ⟨false, mList, [none]⟩

/-- Parameters of evaluateExecAllowlist. -/
structure ExecEvalParams where
  analysis : ExecCommandAnalysis
  allowlist : List ExecAllowlistEntry
  safeBins : List String
  cwd : Option String
  trustedSafeBinDirs : Option (List String)
  skillBins : Option (List String)
  autoAllowSkills : Option Bool

/-- Forgetting the analysis component. -/
def ExecEvalParams.toSegParams (p : ExecEvalParams) : SegmentEvalParams :=
  ⟨p.allowlist, p.safeBins, p.cwd, p.trustedSafeBinDirs, p.skillBins, p.autoAllowSkills⟩

/-- The chain-part loop of evaluateExecAllowlist: none when some chain
part is unsatisfied (the early return), otherwise the concatenated
matches and attributions of all parts. -/
def evalChains (ext : Externals) (processPlatform : String) (p : SegmentEvalParams) :
    List (List ExecCommandSegment) → Option (List ExecAllowlistEntry × List (Option SatBy))
  | [] => some ([], [])
  | c :: cs =>
    let r := evaluateSegments ext processPlatform p c
    if r.satisfied then
      match evalChains ext processPlatform p cs with
      | some (ms, sbs) => some (r.foundMatches ++ ms, r.segmentSatisfiedBy ++ sbs)
      | none => none
    else none

/-- Translation of evaluateExecAllowlist from the source. A present
chains field, even an empty list, selects the chained path, matching the
host-language truthiness of an array value. -/
def evaluateExecAllowlist (ext : Externals) (processPlatform : String)
    (p : ExecEvalParams) : ExecAllowlistEvaluation :=
  if ¬p.analysis.ok ∨ p.analysis.segments = [] then ⟨false, [], []⟩
  else
    match p.analysis.chains with
    | some cs =>
      match evalChains ext processPlatform p.toSegParams cs with
      | some (ms, sbs) => ⟨true, ms, sbs⟩
      | none => ⟨false, [], []⟩
    | none =>
      let r := evaluateSegments ext processPlatform p.toSegParams p.analysis.segments
      ⟨r.satisfied, r.foundMatches, r.segmentSatisfiedBy⟩

/-- Parameters of evaluateShellAllowlist. -/
structure ShellEvalParams where
  command : String
  allowlist : List ExecAllowlistEntry
  safeBins : List String
  cwd : Option String
  env : Option (List (String × String))
  trustedSafeBinDirs : Option (List String)
  skillBins : Option (List String)
  autoAllowSkills : Option Bool
  platform : Option String

/-- Building the evaluateExecAllowlist parameters from the shell-level
ones plus an analysis. -/
def ShellEvalParams.toExecParams (p : ShellEvalParams) (analysis : ExecCommandAnalysis) :
    ExecEvalParams :=
  ⟨analysis, p.allowlist, p.safeBins, p.cwd, p.trustedSafeBinDirs, p.skillBins,
   p.autoAllowSkills⟩

/-- The analysisFailure result of evaluateShellAllowlist. -/
def analysisFailureResult : ExecAllowlistAnalysis := ⟨false, false, [], [], []⟩

/-- The chain-part loop of evaluateShellAllowlist: a failed analysis of
any part discards everything; an unsatisfied part stops with the
diagnostics accumulated so far. -/
def evalShellChainParts (ext : Externals) (processPlatform : String) (p : ShellEvalParams) :
    List String → List ExecAllowlistEntry → List ExecCommandSegment →
    List (Option SatBy) → ExecAllowlistAnalysis
  | [], accM, accSeg, accSb => ⟨true, true, accM, accSeg, accSb⟩
  | part :: rest, accM, accSeg, accSb =>
    let analysis := ext.analyzeShellCommand part p.cwd p.env p.platform
    if ¬analysis.ok then analysisFailureResult
    else
      let ev := evaluateExecAllowlist ext processPlatform (p.toExecParams analysis)
      if ¬ev.allowlistSatisfied then
        ⟨true, false, accM ++ ev.allowlistMatches, accSeg ++ analysis.segments,
         accSb ++ ev.segmentSatisfiedBy⟩
      else
        evalShellChainParts ext processPlatform p rest (accM ++ ev.allowlistMatches)
          (accSeg ++ analysis.segments) (accSb ++ ev.segmentSatisfiedBy)

/-- Translation of evaluateShellAllowlist from the source: on a
simulated Windows platform chain splitting is skipped; otherwise the
external splitter may produce chain parts that are analyzed and
evaluated one by one. -/
def evaluateShellAllowlist (ext : Externals) (processPlatform : String)
    (p : ShellEvalParams) : ExecAllowlistAnalysis :=
  match (if ext.isWindowsPlatform p.platform then none else ext.splitCommandChain p.command) with
  | none =>
    let analysis := ext.analyzeShellCommand p.command p.cwd p.env p.platform
    if ¬analysis.ok then analysisFailureResult
    else
      let ev := evaluateExecAllowlist ext processPlatform (p.toExecParams analysis)
      ⟨true, ev.allowlistSatisfied, ev.allowlistMatches, analysis.segments,
       ev.segmentSatisfiedBy⟩
  | some parts => evalShellChainParts ext processPlatform p parts [] [] []

/-- Translation of normalizeSafeBins from the source: none models a
non-array input; the set is modelled by its deduplicated element list. -/
def normalizeSafeBins (entries : Option (List String)) : List String :=
  match entries with
  | none => []
  | some es => ((es.map (fun e => toLowerStr (trimStr e))).filter (fun e => e ≠ "")).dedup

/-- The three host-language shapes a resolveSafeBins argument can take. -/
inductive SafeBinsArg where
  | undef : SafeBinsArg
  | null : SafeBinsArg
  | arr (entries : List String) : SafeBinsArg
deriving DecidableEq

/-- Translation of resolveSafeBins from the source, parameterized by the
external DEFAULT_SAFE_BINS list: undefined falls back to the defaults,
null coalesces to the empty array, an array is normalized directly. -/
def resolveSafeBins (defaults : List String) : SafeBinsArg → List String
  | SafeBinsArg.undef => normalizeSafeBins (some defaults)
  | SafeBinsArg.null => normalizeSafeBins (some [])
  | SafeBinsArg.arr es => normalizeSafeBins (some es)

/-- Concrete resolution of a head binary, used in concrete runs. -/
def headRes : CommandResolution := ⟨some "head", some "/usr/bin/head"⟩

/-- Concrete head pipeline segment. -/
def headSeg : ExecCommandSegment := ⟨["head", "-n", "5"], some headRes⟩

/-- Concrete externals: the analyzer always yields one head segment, no
chain splitting, an allowlist matcher that never matches, every path
trusted, and ordinary win32 platform detection. -/
def cExtA : Externals :=
  ⟨fun _ _ _ _ => ⟨true, [headSeg], none⟩,
   fun _ => none,
   fun _ _ => none,
   fun _ _ => none,
   fun _ _ => true,
   fun pl => pl == some "win32",
   fun s => s⟩

/-- Shell parameters simulating a Windows platform from the caller while
the safe-bin set contains head. -/
def pSimWin : ShellEvalParams :=
  ⟨"head -n 5", [], ["head"], none, none, none, none, none, some "win32"⟩

/-- Shell parameters with no simulated platform. -/
def pNoPlat : ShellEvalParams :=
  ⟨"head -n 5", [], ["head"], none, none, none, none, none, none⟩

/-- Concrete allowlist entry for git. -/
def gitEntry : ExecAllowlistEntry := ⟨"git"⟩

/-- Concrete git resolution. -/
def gitRes : CommandResolution := ⟨some "git", some "/usr/bin/git"⟩

/-- Concrete git segment. -/
def gitSeg : ExecCommandSegment := ⟨["git", "status"], some gitRes⟩

/-- Concrete curl segment, matched by nothing. -/
def curlSeg : ExecCommandSegment := ⟨["curl", "http"], some ⟨some "curl", some "/usr/bin/curl"⟩⟩

/-- Concrete externals whose allowlist matcher matches exactly git
resolutions to the first configured entry and whose trust check refuses
everything. -/
def cExtB : Externals :=
  ⟨fun _ _ _ _ => ⟨false, [], none⟩,
   fun _ => none,
   fun entries res =>
     match res with
     | some r => if r.executableName == some "git" then entries.head? else none
     | none => none,
   fun _ _ => none,
   fun _ _ => false,
   fun pl => pl == some "win32",
   fun s => s⟩

/-- Chained evaluation parameters: a satisfied git part followed by an
unsatisfied curl part. -/
def pChained : ExecEvalParams :=
  ⟨⟨true, [gitSeg, curlSeg], some [[gitSeg], [curlSeg]]⟩,
   [gitEntry], [], none, none, none, none⟩

/-- The same two segments as a single pipeline with no chains field. -/
def pUnchained : ExecEvalParams :=
  ⟨⟨true, [gitSeg, curlSeg], none⟩, [gitEntry], [], none, none, none, none⟩


/-- The path-like test exactly as the specification words it: the token,
after trimming, starts with one of the relative or absolute prefixes or
a drive-letter prefix. -/
def specPathLikeToken (t : String) : Bool :=
  strStartsWith (trimStr t) "./" || strStartsWith (trimStr t) "../" ||
  strStartsWith (trimStr t) "~" || strStartsWith (trimStr t) "/" ||
  hasDriveLetterPrefix (trimStr t)

/-- The safe-literal test exactly as the claim words it: empty, the
stdin dash, or neither glob-like nor path-like. -/
def specSafeLiteralToken (t : String) : Bool :=
  (t == "") || (t == "-") || (!hasGlobToken t && !specPathLikeToken t)

/-- A long flag token whose name (the part before any inline equals
value) is blocked, as the claim words it. -/
def isBlockedLongFlagToken (bf : List String) (token : String) : Bool :=
  strStartsWith token "--" && !(token == "--") && decide (longFlagName token ∈ bf)

/-- Walk of a short-flag cluster that hits a blocked flag character
before any value-flag character, as the claim words it. -/
def clusterHitsBlockedFlag (vf bf : List String) : List Char → Bool
  | [] => false
  | c :: cs =>
    if String.mk ['-', c] ∈ bf then true
    else if String.mk ['-', c] ∈ vf then false
    else clusterHitsBlockedFlag vf bf cs

/-- A short-flag cluster token with a blocked character before any
value-flag character. -/
def isBlockedClusterToken (vf bf : List String) (token : String) : Bool :=
  strStartsWith token "-" && !(strStartsWith token "--") && !(token == "-") &&
  clusterHitsBlockedFlag vf bf (List.drop 1 token.data)


/-- The tokens that the argument scanner processes in flag position:
dash-prefixed tokens reached at the head of the scan, excluding the
double-dash terminator, the bare dash, tokens consumed as flag values,
and trailing tokens after the terminator; listed in scan order up to
the point where the scan stops or rejects. -/
def flagTokens (valueFlags blockedFlags : List String) : List String → List String
  | [] => []
  | token :: rest =>
    if token = "" then flagTokens valueFlags blockedFlags rest
    else if token = "--" then []
    else if token = "-" then flagTokens valueFlags blockedFlags rest
    else if !strStartsWith token "-" then
      if isSafeLiteralToken token then flagTokens valueFlags blockedFlags rest else []
    else if strStartsWith token "--" then
      token ::
        (if longFlagName token ∈ blockedFlags then []
        else
          match longFlagValue? token with
          | some v =>
            if isSafeLiteralToken v then flagTokens valueFlags blockedFlags rest else []
          | none =>
            if longFlagName token ∈ valueFlags then
              match rest with
              | [] => []
              | v :: rest2 =>
                if v = "" then []
                else if isSafeLiteralToken v then flagTokens valueFlags blockedFlags rest2
                else []
            else flagTokens valueFlags blockedFlags rest)
    else
      token ::
        (match scanShortCluster valueFlags blockedFlags (List.drop 1 token.data) with
        | ClusterScan.reject => []
        | ClusterScan.noValue =>
          if hasGlobToken token then [] else flagTokens valueFlags blockedFlags rest
        | ClusterScan.inlineValue _ => flagTokens valueFlags blockedFlags rest
        | ClusterScan.nextValue =>
          match rest with
          | [] => []
          | v :: rest2 =>
            if v = "" then []
            else if isSafeLiteralToken v then flagTokens valueFlags blockedFlags rest2
            else [])

lemma scanSafeBinArgs_cons (vf bf : List String) (token : String) (rest : List String) :
    scanSafeBinArgs vf bf (token :: rest) =
      (if token = "" then scanSafeBinArgs vf bf rest
      else if token = "--" then
        match scanTrailingPositionals rest with
        | some ps => some (ps, [])
        | none => none
      else if token = "-" then scanSafeBinArgs vf bf rest
      else if !strStartsWith token "-" then
        if isSafeLiteralToken token then
          match scanSafeBinArgs vf bf rest with
          | some (ps, vs) => some (token :: ps, vs)
          | none => none
        else none
      else if strStartsWith token "--" then
        if longFlagName token ∈ bf then none
        else
          match longFlagValue? token with
          | some v =>
            if isSafeLiteralToken v then
              match scanSafeBinArgs vf bf rest with
              | some (ps, vs) => some (ps, v :: vs)
              | none => none
            else none
          | none =>
            if longFlagName token ∈ vf then
              match rest with
              | [] => none
              | v :: rest2 =>
                if v = "" then none
                else if isSafeLiteralToken v then
                  match scanSafeBinArgs vf bf rest2 with
                  | some (ps, vs) => some (ps, v :: vs)
                  | none => none
                else none
            else scanSafeBinArgs vf bf rest
      else
        match scanShortCluster vf bf (List.drop 1 token.data) with
        | ClusterScan.reject => none
        | ClusterScan.noValue =>
          if hasGlobToken token then none
          else scanSafeBinArgs vf bf rest
        | ClusterScan.inlineValue v =>
          match scanSafeBinArgs vf bf rest with
          | some (ps, vs) => some (ps, v :: vs)
          | none => none
        | ClusterScan.nextValue =>
          match rest with
          | [] => none
          | v :: rest2 =>
            if v = "" then none
            else if isSafeLiteralToken v then
              match scanSafeBinArgs vf bf rest2 with
              | some (ps, vs) => some (ps, v :: vs)
              | none => none
            else none) := by
  cases rest <;> simp only [scanSafeBinArgs]

lemma scanTrailingPositionals_safe :
    ∀ l ps, scanTrailingPositionals l = some ps → ∀ t ∈ ps, isSafeLiteralToken t = true := by
  intro l
  induction l with
  | nil =>
    intro ps h t ht
    simp [scanTrailingPositionals] at h
    subst h
    simp at ht
  | cons r rs ih =>
    intro ps h t ht
    simp only [scanTrailingPositionals] at h
    by_cases hr : r = "" ∨ r = "-"
    · rw [if_pos hr] at h
      exact ih ps h t ht
    · rw [if_neg hr] at h
      by_cases hs : isSafeLiteralToken r = true
      · rw [if_pos hs] at h
        cases htr : scanTrailingPositionals rs with
        | none => rw [htr] at h; cases h
        | some ps2 =>
          rw [htr] at h
          obtain rfl : r :: ps2 = ps := by simpa using h
          rcases List.mem_cons.mp ht with rfl | ht2
          · exact hs
          · exact ih ps2 htr t ht2
      · rw [if_neg hs] at h
        cases h

lemma scanShortCluster_inline_safe :
    ∀ vf bf cs v, scanShortCluster vf bf cs = ClusterScan.inlineValue v →
      isSafeLiteralToken v = true := by
  intro vf bf cs
  induction cs with
  | nil => intro v h; simp [scanShortCluster] at h
  | cons c cs2 ih =>
    intro v h
    simp only [scanShortCluster] at h
    by_cases hb : String.mk ['-', c] ∈ bf
    · rw [if_pos hb] at h; cases h
    · rw [if_neg hb] at h
      by_cases hv : String.mk ['-', c] ∈ vf
      · rw [if_pos hv] at h
        by_cases he : String.mk cs2 = ""
        · rw [if_pos he] at h; cases h
        · rw [if_neg he] at h
          by_cases hs : isSafeLiteralToken (String.mk cs2) = true
          · rw [if_pos hs] at h
            obtain rfl : String.mk cs2 = v := by
              cases h
              rfl
            exact hs
          · rw [if_neg hs] at h; cases h
      · rw [if_neg hv] at h
        exact ih v h

lemma scanSafeBinArgs_safe (vf bf : List String) :
    ∀ args ps vs, scanSafeBinArgs vf bf args = some (ps, vs) →
      (∀ t ∈ ps, isSafeLiteralToken t = true) ∧ (∀ t ∈ vs, isSafeLiteralToken t = true) := by
  intro args
  induction args using scanSafeBinArgs.induct vf bf with
  | case1 =>
    intro ps vs h
    simp [scanSafeBinArgs] at h
    obtain ⟨rfl, rfl⟩ := h
    simp
  | case2 rs ih =>
    intro ps vs h
    simp [scanSafeBinArgs_cons] at h
    exact ih ps vs h
  | case3 rs ps1 htr hne =>
    intro ps vs h
    simp [scanSafeBinArgs_cons, htr] at h
    obtain ⟨rfl, rfl⟩ := h
    exact ⟨fun t ht => scanTrailingPositionals_safe rs ps1 htr t ht, by simp⟩
  | case4 rs htr hne =>
    intro ps vs h
    simp [scanSafeBinArgs_cons, htr] at h
  | case5 rs hne1 hne2 ih =>
    intro ps vs h
    simp [scanSafeBinArgs_cons] at h
    exact ih ps vs h
  | case6 r rs h1 h2 h3 h4 hsafe ps1 vs1 hscan ih =>
    intro ps vs h
    simp [scanSafeBinArgs_cons, h1, h2, h3, h4, hsafe, hscan] at h
    obtain ⟨rfl, rfl⟩ := h
    obtain ⟨A, B⟩ := ih ps1 vs1 hscan
    refine ⟨?_, B⟩
    intro t ht
    rcases List.mem_cons.mp ht with rfl | ht2
    · exact hsafe
    · exact A t ht2
  | case7 r rs h1 h2 h3 h4 hsafe hscan ih =>
    intro ps vs h
    simp [scanSafeBinArgs_cons, h1, h2, h3, h4, hsafe, hscan] at h
  | case8 r rs h1 h2 h3 h4 hunsafe =>
    intro ps vs h
    simp [scanSafeBinArgs_cons, h1, h2, h3, h4, hunsafe] at h
  | case9 r rs h1 h2 h3 h4 h5 hblocked =>
    intro ps vs h
    simp [scanSafeBinArgs_cons, h1, h2, h3, h4, h5, hblocked] at h
  | case10 r rs h1 h2 h3 h4 h5 hnb v hval hvsafe ps1 vs1 hscan ih =>
    intro ps vs h
    simp [scanSafeBinArgs_cons, h1, h2, h3, h4, h5, hnb, hval, hvsafe, hscan] at h
    obtain ⟨rfl, rfl⟩ := h
    obtain ⟨A, B⟩ := ih ps1 vs1 hscan
    refine ⟨A, ?_⟩
    intro t ht
    rcases List.mem_cons.mp ht with rfl | ht2
    · exact hvsafe
    · exact B t ht2
  | case11 r rs h1 h2 h3 h4 h5 hnb v hval hvsafe hscan ih =>
    intro ps vs h
    simp [scanSafeBinArgs_cons, h1, h2, h3, h4, h5, hnb, hval, hvsafe, hscan] at h
  | case12 r rs h1 h2 h3 h4 h5 hnb v hval hvunsafe =>
    intro ps vs h
    simp [scanSafeBinArgs_cons, h1, h2, h3, h4, h5, hnb, hval, hvunsafe] at h
  | case13 r h1 h2 h3 h4 h5 hnb hval hvf =>
    intro ps vs h
    simp [scanSafeBinArgs_cons, h1, h2, h3, h4, h5, hnb, hval, hvf] at h
  | case14 r h1 h2 h3 h4 h5 hnb hval hvf rs =>
    intro ps vs h
    simp [scanSafeBinArgs_cons, h1, h2, h3, h4, h5, hnb, hval, hvf] at h
  | case15 r h1 h2 h3 h4 h5 hnb hval hvf v rs hvne hvsafe ps1 vs1 hscan ih =>
    intro ps vs h
    simp [scanSafeBinArgs_cons, h1, h2, h3, h4, h5, hnb, hval, hvf, hvne, hvsafe, hscan] at h
    obtain ⟨rfl, rfl⟩ := h
    obtain ⟨A, B⟩ := ih ps1 vs1 hscan
    refine ⟨A, ?_⟩
    intro t ht
    rcases List.mem_cons.mp ht with rfl | ht2
    · exact hvsafe
    · exact B t ht2
  | case16 r h1 h2 h3 h4 h5 hnb hval hvf v rs hvne hvsafe hscan ih =>
    intro ps vs h
    simp [scanSafeBinArgs_cons, h1, h2, h3, h4, h5, hnb, hval, hvf, hvne, hvsafe, hscan] at h
  | case17 r h1 h2 h3 h4 h5 hnb hval hvf v rs hvne hvunsafe =>
    intro ps vs h
    simp [scanSafeBinArgs_cons, h1, h2, h3, h4, h5, hnb, hval, hvf, hvne, hvunsafe] at h
  | case18 r rs h1 h2 h3 h4 h5 hnb hval hnvf ih =>
    intro ps vs h
    simp [scanSafeBinArgs_cons, h1, h2, h3, h4, h5, hnb, hval, hnvf] at h
    exact ih ps vs h
  | case19 r rs h1 h2 h3 h4 h5 hcl =>
    intro ps vs h
    simp only [List.drop_one] at hcl
    simp [scanSafeBinArgs_cons, h1, h2, h3, h4, h5, hcl] at h
  | case20 r rs h1 h2 h3 h4 h5 hcl hglob =>
    intro ps vs h
    simp only [List.drop_one] at hcl
    simp [scanSafeBinArgs_cons, h1, h2, h3, h4, h5, hcl, hglob] at h
  | case21 r rs h1 h2 h3 h4 h5 hcl hnglob ih =>
    intro ps vs h
    simp only [List.drop_one] at hcl
    simp [scanSafeBinArgs_cons, h1, h2, h3, h4, h5, hcl, hnglob] at h
    exact ih ps vs h
  | case22 r rs h1 h2 h3 h4 h5 v hcl ps1 vs1 hscan ih =>
    intro ps vs h
    simp only [List.drop_one] at hcl
    simp [scanSafeBinArgs_cons, h1, h2, h3, h4, h5, hcl, hscan] at h
    obtain ⟨rfl, rfl⟩ := h
    obtain ⟨A, B⟩ := ih ps1 vs1 hscan
    refine ⟨A, ?_⟩
    intro t ht
    rcases List.mem_cons.mp ht with rfl | ht2
    · exact scanShortCluster_inline_safe vf bf r.data.tail t hcl
    · exact B t ht2
  | case23 r rs h1 h2 h3 h4 h5 v hcl hscan ih =>
    intro ps vs h
    simp only [List.drop_one] at hcl
    simp [scanSafeBinArgs_cons, h1, h2, h3, h4, h5, hcl, hscan] at h
  | case24 r h1 h2 h3 h4 h5 hcl =>
    intro ps vs h
    simp only [List.drop_one] at hcl
    simp [scanSafeBinArgs_cons, h1, h2, h3, h4, h5, hcl] at h
  | case25 r h1 h2 h3 h4 h5 hcl rs =>
    intro ps vs h
    simp only [List.drop_one] at hcl
    simp [scanSafeBinArgs_cons, h1, h2, h3, h4, h5, hcl] at h
  | case26 r h1 h2 h3 h4 h5 hcl v rs hvne hvsafe ps1 vs1 hscan ih =>
    intro ps vs h
    simp only [List.drop_one] at hcl
    simp [scanSafeBinArgs_cons, h1, h2, h3, h4, h5, hcl, hvne, hvsafe, hscan] at h
    obtain ⟨rfl, rfl⟩ := h
    obtain ⟨A, B⟩ := ih ps1 vs1 hscan
    refine ⟨A, ?_⟩
    intro t ht
    rcases List.mem_cons.mp ht with rfl | ht2
    · exact hvsafe
    · exact B t ht2
  | case27 r h1 h2 h3 h4 h5 hcl v rs hvne hvsafe hscan ih =>
    intro ps vs h
    simp only [List.drop_one] at hcl
    simp [scanSafeBinArgs_cons, h1, h2, h3, h4, h5, hcl, hvne, hvsafe, hscan] at h
  | case28 r h1 h2 h3 h4 h5 hcl v rs hvne hvunsafe =>
    intro ps vs h
    simp only [List.drop_one] at hcl
    simp [scanSafeBinArgs_cons, h1, h2, h3, h4, h5, hcl, hvne, hvunsafe] at h

lemma isPathLikeToken_eq_spec (t : String) : isPathLikeToken t = specPathLikeToken t := by
  unfold isPathLikeToken specPathLikeToken
  by_cases h0 : trimStr t = ""
  · rw [h0]
    decide
  · by_cases h1 : trimStr t = "-"
    · rw [h1]
      decide
    · rw [if_neg h0, if_neg h1]

lemma isSafeLiteralToken_eq_spec (t : String) :
    isSafeLiteralToken t = specSafeLiteralToken t := by
  unfold isSafeLiteralToken specSafeLiteralToken
  by_cases h : t = "" ∨ t = "-"
  · rw [if_pos h]
    rcases h with h | h <;> rw [h] <;> decide
  · rw [if_neg h]
    push_neg at h
    have e1 : (t == "") = false := by simp [h.1]
    have e2 : (t == "-") = false := by simp [h.2]
    rw [e1, e2, isPathLikeToken_eq_spec]
    simp

lemma scanShortCluster_reject_of_hitsBlocked (vf bf : List String) :
    ∀ cs, clusterHitsBlockedFlag vf bf cs = true →
      scanShortCluster vf bf cs = ClusterScan.reject := by
  intro cs
  induction cs with
  | nil => intro h; simp [clusterHitsBlockedFlag] at h
  | cons c cs2 ih =>
    intro h
    simp only [clusterHitsBlockedFlag] at h
    simp only [scanShortCluster]
    by_cases hb : String.mk ['-', c] ∈ bf
    · rw [if_pos hb]
    · rw [if_neg hb] at h ⊢
      by_cases hv : String.mk ['-', c] ∈ vf
      · rw [if_pos hv] at h
        cases h
      · rw [if_neg hv] at h ⊢
        exact ih h

lemma scanSafeBinArgs_none_of_blockedLong (vf bf : List String) (token : String)
    (rest : List String) (h : isBlockedLongFlagToken bf token = true) :
    scanSafeBinArgs vf bf (token :: rest) = none := by
  simp only [isBlockedLongFlagToken, Bool.and_eq_true] at h
  obtain ⟨⟨hss, hne⟩, hmem⟩ := h
  have hne' : ¬token = "--" := by simpa using hne
  have hmem' : longFlagName token ∈ bf := by simpa using hmem
  have hd : strStartsWith token "-" = true := by
    unfold strStartsWith at hss ⊢
    have h1 : "-".data <+: "--".data := ⟨['-'], rfl⟩
    exact List.isPrefixOf_iff_prefix.mpr (h1.trans (List.isPrefixOf_iff_prefix.mp hss))
  have hne0 : ¬token = "" := by
    intro he
    rw [he] at hss
    exact absurd hss (by decide)
  have hne1 : ¬token = "-" := by
    intro he
    rw [he] at hss
    exact absurd hss (by decide)
  simp [scanSafeBinArgs_cons, hne0, hne', hne1, hd, hss, hmem']

lemma scanSafeBinArgs_none_of_blockedCluster (vf bf : List String) (token : String)
    (rest : List String) (h : isBlockedClusterToken vf bf token = true) :
    scanSafeBinArgs vf bf (token :: rest) = none := by
  simp only [isBlockedClusterToken, Bool.and_eq_true] at h
  obtain ⟨⟨⟨hss, hnss⟩, hne⟩, hhit⟩ := h
  have hne' : ¬token = "-" := by simpa using hne
  have hnss' : strStartsWith token "--" = false := by simpa using hnss
  have hne0 : ¬token = "" := by
    intro he
    rw [he] at hss
    exact absurd hss (by decide)
  have hne2 : ¬token = "--" := by
    intro he
    rw [he] at hnss'
    exact absurd hnss' (by decide)
  have hrej := scanShortCluster_reject_of_hitsBlocked vf bf (List.drop 1 token.data) hhit
  rw [List.drop_one] at hrej
  simp [scanSafeBinArgs_cons, hne0, hne2, hne', hss, hnss', hrej]

lemma flagTokens_cons (vf bf : List String) (token : String) (rest : List String) :
    flagTokens vf bf (token :: rest) =
      (if token = "" then flagTokens vf bf rest
      else if token = "--" then []
      else if token = "-" then flagTokens vf bf rest
      else if !strStartsWith token "-" then
        if isSafeLiteralToken token then flagTokens vf bf rest else []
      else if strStartsWith token "--" then
        token ::
          (if longFlagName token ∈ bf then []
          else
            match longFlagValue? token with
            | some v => if isSafeLiteralToken v then flagTokens vf bf rest else []
            | none =>
              if longFlagName token ∈ vf then
                match rest with
                | [] => []
                | v :: rest2 =>
                  if v = "" then []
                  else if isSafeLiteralToken v then flagTokens vf bf rest2
                  else []
              else flagTokens vf bf rest)
      else
        token ::
          (match scanShortCluster vf bf (List.drop 1 token.data) with
          | ClusterScan.reject => []
          | ClusterScan.noValue =>
            if hasGlobToken token then [] else flagTokens vf bf rest
          | ClusterScan.inlineValue _ => flagTokens vf bf rest
          | ClusterScan.nextValue =>
            match rest with
            | [] => []
            | v :: rest2 =>
              if v = "" then []
              else if isSafeLiteralToken v then flagTokens vf bf rest2
              else [])) := by
  cases rest <;> simp only [flagTokens]

lemma blockedLong_parts {bf : List String} {r : String}
    (h : isBlockedLongFlagToken bf r = true) :
    strStartsWith r "--" = true ∧ r ≠ "--" ∧ longFlagName r ∈ bf := by
  simp only [isBlockedLongFlagToken, Bool.and_eq_true, bne_iff_ne, ne_eq,
    decide_eq_true_eq, Bool.not_eq_true', beq_eq_false_iff_ne] at h
  tauto

lemma blockedCluster_parts {vf bf : List String} {r : String}
    (h : isBlockedClusterToken vf bf r = true) :
    strStartsWith r "-" = true ∧ strStartsWith r "--" = false ∧ r ≠ "-" ∧
    clusterHitsBlockedFlag vf bf (List.drop 1 r.data) = true := by
  simp only [isBlockedClusterToken, Bool.and_eq_true, Bool.not_eq_true',
    beq_eq_false_iff_ne, ne_eq] at h
  tauto

lemma not_blocked_long_head {vf bf : List String} {r : String}
    (hnb : longFlagName r ∉ bf)
    (hblk : isBlockedLongFlagToken bf r = true ∨ isBlockedClusterToken vf bf r = true)
    (h5 : strStartsWith r "--" = true) : False := by
  rcases hblk with hb | hb
  · exact hnb (blockedLong_parts hb).2.2
  · have h2 := (blockedCluster_parts hb).2.1
    rw [h5] at h2
    exact absurd h2 (by decide)

lemma not_blocked_cluster_head {vf bf : List String} {r : String}
    (hnss : ¬strStartsWith r "--" = true)
    (hres : scanShortCluster vf bf (List.drop 1 r.data) ≠ ClusterScan.reject)
    (hblk : isBlockedLongFlagToken bf r = true ∨ isBlockedClusterToken vf bf r = true) :
    False := by
  rcases hblk with hb | hb
  · exact hnss (blockedLong_parts hb).1
  · exact hres (scanShortCluster_reject_of_hitsBlocked vf bf (List.drop 1 r.data)
      (blockedCluster_parts hb).2.2.2)

lemma scanSafeBinArgs_none_of_blocked_flagToken (vf bf : List String) :
    ∀ args token, token ∈ flagTokens vf bf args →
      isBlockedLongFlagToken bf token = true ∨ isBlockedClusterToken vf bf token = true →
      scanSafeBinArgs vf bf args = none := by
  intro args
  induction args using scanSafeBinArgs.induct vf bf with
  | case1 =>
    intro token hmem hblk
    simp [flagTokens] at hmem
  | case2 rs ih =>
    intro token hmem hblk
    simp [flagTokens_cons] at hmem
    simp [scanSafeBinArgs_cons]
    exact ih token hmem hblk
  | case3 rs ps1 htr hne =>
    intro token hmem hblk
    simp [flagTokens_cons] at hmem
  | case4 rs htr hne =>
    intro token hmem hblk
    simp [flagTokens_cons] at hmem
  | case5 rs hne1 hne2 ih =>
    intro token hmem hblk
    simp [flagTokens_cons] at hmem
    simp [scanSafeBinArgs_cons]
    exact ih token hmem hblk
  | case6 r rs h1 h2 h3 h4 hsafe ps1 vs1 hscan ih =>
    intro token hmem hblk
    simp [flagTokens_cons, h1, h2, h3, h4, hsafe] at hmem
    have hn := ih token hmem hblk
    simp [scanSafeBinArgs_cons, h1, h2, h3, h4, hsafe, hn]
  | case7 r rs h1 h2 h3 h4 hsafe hscan ih =>
    intro token hmem hblk
    simp [scanSafeBinArgs_cons, h1, h2, h3, h4, hsafe, hscan]
  | case8 r rs h1 h2 h3 h4 hunsafe =>
    intro token hmem hblk
    simp [scanSafeBinArgs_cons, h1, h2, h3, h4, hunsafe]
  | case9 r rs h1 h2 h3 h4 h5 hblocked =>
    intro token hmem hblk
    simp [scanSafeBinArgs_cons, h1, h2, h3, h4, h5, hblocked]
  | case10 r rs h1 h2 h3 h4 h5 hnb v hval hvsafe ps1 vs1 hscan ih =>
    intro token hmem hblk
    simp [flagTokens_cons, h1, h2, h3, h4, h5, hnb, hval, hvsafe] at hmem
    rcases hmem with rfl | hmem2
    · exact absurd h5 (fun h5p => not_blocked_long_head hnb hblk h5p)
    · have hn := ih token hmem2 hblk
      simp [scanSafeBinArgs_cons, h1, h2, h3, h4, h5, hnb, hval, hvsafe, hn]
  | case11 r rs h1 h2 h3 h4 h5 hnb v hval hvsafe hscan ih =>
    intro token hmem hblk
    simp [scanSafeBinArgs_cons, h1, h2, h3, h4, h5, hnb, hval, hvsafe, hscan]
  | case12 r rs h1 h2 h3 h4 h5 hnb v hval hvunsafe =>
    intro token hmem hblk
    simp [scanSafeBinArgs_cons, h1, h2, h3, h4, h5, hnb, hval, hvunsafe]
  | case13 r h1 h2 h3 h4 h5 hnb hval hvf =>
    intro token hmem hblk
    simp [scanSafeBinArgs_cons, h1, h2, h3, h4, h5, hnb, hval, hvf]
  | case14 r h1 h2 h3 h4 h5 hnb hval hvf rs =>
    intro token hmem hblk
    simp [scanSafeBinArgs_cons, h1, h2, h3, h4, h5, hnb, hval, hvf]
  | case15 r h1 h2 h3 h4 h5 hnb hval hvf v rs hvne hvsafe ps1 vs1 hscan ih =>
    intro token hmem hblk
    simp [flagTokens_cons, h1, h2, h3, h4, h5, hnb, hval, hvf, hvne, hvsafe] at hmem
    rcases hmem with rfl | hmem2
    · exact absurd h5 (fun h5p => not_blocked_long_head hnb hblk h5p)
    · have hn := ih token hmem2 hblk
      simp [scanSafeBinArgs_cons, h1, h2, h3, h4, h5, hnb, hval, hvf, hvne, hvsafe, hn]
  | case16 r h1 h2 h3 h4 h5 hnb hval hvf v rs hvne hvsafe hscan ih =>
    intro token hmem hblk
    simp [scanSafeBinArgs_cons, h1, h2, h3, h4, h5, hnb, hval, hvf, hvne, hvsafe, hscan]
  | case17 r h1 h2 h3 h4 h5 hnb hval hvf v rs hvne hvunsafe =>
    intro token hmem hblk
    simp [scanSafeBinArgs_cons, h1, h2, h3, h4, h5, hnb, hval, hvf, hvne, hvunsafe]
  | case18 r rs h1 h2 h3 h4 h5 hnb hval hnvf ih =>
    intro token hmem hblk
    simp [flagTokens_cons, h1, h2, h3, h4, h5, hnb, hval, hnvf] at hmem
    rcases hmem with rfl | hmem2
    · exact absurd h5 (fun h5p => not_blocked_long_head hnb hblk h5p)
    · have hn := ih token hmem2 hblk
      simp [scanSafeBinArgs_cons, h1, h2, h3, h4, h5, hnb, hval, hnvf, hn]
  | case19 r rs h1 h2 h3 h4 h5 hcl =>
    intro token hmem hblk
    simp only [List.drop_one] at hcl
    simp [scanSafeBinArgs_cons, h1, h2, h3, h4, h5, hcl]
  | case20 r rs h1 h2 h3 h4 h5 hcl hglob =>
    intro token hmem hblk
    simp only [List.drop_one] at hcl
    simp [scanSafeBinArgs_cons, h1, h2, h3, h4, h5, hcl, hglob]
  | case21 r rs h1 h2 h3 h4 h5 hcl hnglob ih =>
    intro token hmem hblk
    simp only [List.drop_one] at hcl
    simp [flagTokens_cons, h1, h2, h3, h4, h5, hcl, hnglob] at hmem
    rcases hmem with rfl | hmem2
    · exact (not_blocked_cluster_head h5 (by rw [List.drop_one, hcl]; simp) hblk).elim
    · have hn := ih token hmem2 hblk
      simp [scanSafeBinArgs_cons, h1, h2, h3, h4, h5, hcl, hnglob, hn]
  | case22 r rs h1 h2 h3 h4 h5 v hcl ps1 vs1 hscan ih =>
    intro token hmem hblk
    simp only [List.drop_one] at hcl
    simp [flagTokens_cons, h1, h2, h3, h4, h5, hcl] at hmem
    rcases hmem with rfl | hmem2
    · exact (not_blocked_cluster_head h5 (by rw [List.drop_one, hcl]; simp) hblk).elim
    · have hn := ih token hmem2 hblk
      simp [scanSafeBinArgs_cons, h1, h2, h3, h4, h5, hcl, hn]
  | case23 r rs h1 h2 h3 h4 h5 v hcl hscan ih =>
    intro token hmem hblk
    simp only [List.drop_one] at hcl
    simp [scanSafeBinArgs_cons, h1, h2, h3, h4, h5, hcl, hscan]
  | case24 r h1 h2 h3 h4 h5 hcl =>
    intro token hmem hblk
    simp only [List.drop_one] at hcl
    simp [scanSafeBinArgs_cons, h1, h2, h3, h4, h5, hcl]
  | case25 r h1 h2 h3 h4 h5 hcl rs =>
    intro token hmem hblk
    simp only [List.drop_one] at hcl
    simp [scanSafeBinArgs_cons, h1, h2, h3, h4, h5, hcl]
  | case26 r h1 h2 h3 h4 h5 hcl v rs hvne hvsafe ps1 vs1 hscan ih =>
    intro token hmem hblk
    simp only [List.drop_one] at hcl
    simp [flagTokens_cons, h1, h2, h3, h4, h5, hcl, hvne, hvsafe] at hmem
    rcases hmem with rfl | hmem2
    · exact (not_blocked_cluster_head h5 (by rw [List.drop_one, hcl]; simp) hblk).elim
    · have hn := ih token hmem2 hblk
      simp [scanSafeBinArgs_cons, h1, h2, h3, h4, h5, hcl, hvne, hvsafe, hn]
  | case27 r h1 h2 h3 h4 h5 hcl v rs hvne hvsafe hscan ih =>
    intro token hmem hblk
    simp only [List.drop_one] at hcl
    simp [scanSafeBinArgs_cons, h1, h2, h3, h4, h5, hcl, hvne, hvsafe, hscan]
  | case28 r h1 h2 h3 h4 h5 hcl v rs hvne hvunsafe =>
    intro token hmem hblk
    simp only [List.drop_one] at hcl
    simp [scanSafeBinArgs_cons, h1, h2, h3, h4, h5, hcl, hvne, hvunsafe]

lemma evaluateSegments_unsat_of_mem_none (ext : Externals) (pp : String)
    (p : SegmentEvalParams) :
    ∀ segs seg, seg ∈ segs → segmentSatBy ext pp p seg = none →
      (evaluateSegments ext pp p segs).satisfied = false := by
  intro segs
  induction segs with
  | nil => intro seg h; simp at h
  | cons s ss ih =>
    intro seg hmem hsb
    rcases List.mem_cons.mp hmem with rfl | hmem2
    · simp [evaluateSegments, hsb]
    · simp only [evaluateSegments]
      cases hs : segmentSatBy ext pp p s with
      | none => simp
      | some b => simpa using ih seg hmem2 hsb
  
lemma evalChains_eq_none (ext : Externals) (pp : String) (p : SegmentEvalParams) :
    ∀ cs c, c ∈ cs → (evaluateSegments ext pp p c).satisfied = false →
      evalChains ext pp p cs = none := by
  intro cs
  induction cs with
  | nil => intro c h; simp at h
  | cons d ds ih =>
    intro c hmem hsat
    rcases List.mem_cons.mp hmem with rfl | h2
    · simp [evalChains, hsat]
    · simp only [evalChains]
      by_cases hd : (evaluateSegments ext pp p d).satisfied
      · rw [ih c h2 hsat]
        simp [hd]
      · simp [hd]

lemma isSafeBinUsage_platform_congr (ext : Externals) (pp1 pp2 : String)
    (h1 : ext.isWindowsPlatform (some pp1) = ext.isWindowsPlatform (some pp2))
    (h2 : (pp1 == "win32") = (pp2 == "win32")) :
    ∀ argv res sb cwd fe tdirs,
      isSafeBinUsage ext pp1 argv res sb cwd fe tdirs
        = isSafeBinUsage ext pp2 argv res sb cwd fe tdirs := by
  intro argv res sb cwd fe tdirs
  unfold isSafeBinUsage
  rw [h1, h2]

lemma segmentSatBy_platform_congr (ext : Externals) (pp1 pp2 : String)
    (h1 : ext.isWindowsPlatform (some pp1) = ext.isWindowsPlatform (some pp2))
    (h2 : (pp1 == "win32") = (pp2 == "win32")) :
    ∀ p seg, segmentSatBy ext pp1 p seg = segmentSatBy ext pp2 p seg := by
  intro p seg
  unfold segmentSatBy
  rw [isSafeBinUsage_platform_congr ext pp1 pp2 h1 h2]

lemma evaluateSegments_platform_congr (ext : Externals) (pp1 pp2 : String)
    (h1 : ext.isWindowsPlatform (some pp1) = ext.isWindowsPlatform (some pp2))
    (h2 : (pp1 == "win32") = (pp2 == "win32")) :
    ∀ p segs, evaluateSegments ext pp1 p segs = evaluateSegments ext pp2 p segs := by
  intro p segs
  induction segs with
  | nil => rfl
  | cons s ss ih =>
    simp only [evaluateSegments]
    rw [segmentSatBy_platform_congr ext pp1 pp2 h1 h2, ih]

lemma evalChains_platform_congr (ext : Externals) (pp1 pp2 : String)
    (h1 : ext.isWindowsPlatform (some pp1) = ext.isWindowsPlatform (some pp2))
    (h2 : (pp1 == "win32") = (pp2 == "win32")) :
    ∀ p cs, evalChains ext pp1 p cs = evalChains ext pp2 p cs := by
  intro p cs
  induction cs with
  | nil => rfl
  | cons c cs2 ih =>
    simp only [evalChains]
    rw [evaluateSegments_platform_congr ext pp1 pp2 h1 h2, ih]

lemma evaluateExecAllowlist_platform_congr (ext : Externals) (pp1 pp2 : String)
    (h1 : ext.isWindowsPlatform (some pp1) = ext.isWindowsPlatform (some pp2))
    (h2 : (pp1 == "win32") = (pp2 == "win32")) :
    ∀ p, evaluateExecAllowlist ext pp1 p = evaluateExecAllowlist ext pp2 p := by
  intro p
  unfold evaluateExecAllowlist
  simp only [evalChains_platform_congr ext pp1 pp2 h1 h2,
    evaluateSegments_platform_congr ext pp1 pp2 h1 h2]

lemma evalShellChainParts_platform_congr (ext : Externals) (pp1 pp2 : String)
    (h1 : ext.isWindowsPlatform (some pp1) = ext.isWindowsPlatform (some pp2))
    (h2 : (pp1 == "win32") = (pp2 == "win32")) (p : ShellEvalParams) :
    ∀ parts accM accSeg accSb,
      evalShellChainParts ext pp1 p parts accM accSeg accSb
        = evalShellChainParts ext pp2 p parts accM accSeg accSb := by
  intro parts
  induction parts with
  | nil => intro accM accSeg accSb; rfl
  | cons part rest ih =>
    intro accM accSeg accSb
    simp only [evalShellChainParts]
    rw [evaluateExecAllowlist_platform_congr ext pp1 pp2 h1 h2]
    by_cases hok : (ext.analyzeShellCommand part p.cwd p.env p.platform).ok
    · simp only [hok]
      by_cases hsat :
          (evaluateExecAllowlist ext pp2
            (p.toExecParams (ext.analyzeShellCommand part p.cwd p.env p.platform))).allowlistSatisfied
      · simp [hsat, ih]
      · simp [hsat]
    · simp [hok]

lemma evaluateShellAllowlist_platform_congr (ext : Externals) (pp1 pp2 : String)
    (h1 : ext.isWindowsPlatform (some pp1) = ext.isWindowsPlatform (some pp2))
    (h2 : (pp1 == "win32") = (pp2 == "win32")) (p : ShellEvalParams) :
    evaluateShellAllowlist ext pp1 p = evaluateShellAllowlist ext pp2 p := by
  unfold evaluateShellAllowlist
  simp only [evaluateExecAllowlist_platform_congr ext pp1 pp2 h1 h2,
    evalShellChainParts_platform_congr ext pp1 pp2 h1 h2]

/-- Parameters with a failed analysis, for witnesses. -/
def pFailedAnalysis : ExecEvalParams :=
  ⟨⟨false, [gitSeg], none⟩, [], [], none, none, none, none⟩

/-- Parameters with a present but empty chains list, for witnesses. -/
def pEmptyChains : ExecEvalParams :=
  ⟨⟨true, [headSeg], some []⟩, [], [], none, none, none, none⟩

/-- C1: for a chained analysis (ok, non-empty segments, chains present),
if any chain part contains a segment whose attribution resolves to none,
evaluateExecAllowlist returns allowlistSatisfied false with empty
allowlistMatches and empty segmentSatisfiedBy, discarding every match
and attribution accumulated from earlier satisfied chain parts. -/
theorem c1_chain_part_failure_discards_all (ext : Externals) (pp : String)
    (p : ExecEvalParams) (cs : List (List ExecCommandSegment))
    (hok : p.analysis.ok = true) (hne : p.analysis.segments ≠ [])
    (hch : p.analysis.chains = some cs)
    (hbad : ∃ c ∈ cs, ∃ seg ∈ c, segmentSatBy ext pp p.toSegParams seg = none) :
    evaluateExecAllowlist ext pp p = ⟨false, [], []⟩ := by
  obtain ⟨c, hc, seg, hseg, hsb⟩ := hbad
  have h1 := evaluateSegments_unsat_of_mem_none ext pp p.toSegParams c seg hseg hsb
  have h2 := evalChains_eq_none ext pp p.toSegParams cs c hc h1
  simp [evaluateExecAllowlist, hok, hne, hch, h2]

/-- Witness for C1: a concrete chained run with a satisfied git part
followed by an unsatisfied curl part yields the fully empty denial. -/
theorem c1_witness : evaluateExecAllowlist cExtB "linux" pChained = ⟨false, [], []⟩ :=
  c1_chain_part_failure_discards_all cExtB "linux" pChained [[gitSeg], [curlSeg]]
    rfl (by decide) rfl ⟨[curlSeg], by decide, curlSeg, by decide, by decide⟩

/-- C2 counterexample: with a simulated Windows platform passed by the
caller (platform win32 while the host process platform is linux),
isSafeBinUsage still returns true for a matching bin with a trusted path
and valid argv, and the shell evaluation auto-approves it through the
safe-bin gate; so the claim that a caller-simulated Windows platform
forces isSafeBinUsage to false is wrong. -/
theorem c2_counterexample :
    cExtA.isWindowsPlatform pSimWin.platform = true ∧
    isSafeBinUsage cExtA "linux" ["head", "-n", "5"] (some headRes) ["head"]
      none none none = true ∧
    (evaluateShellAllowlist cExtA "linux" pSimWin).segmentSatisfiedBy
      = [some SatBy.safeBins] ∧
    (evaluateShellAllowlist cExtA "linux" pSimWin).allowlistSatisfied = true :=
  ⟨by decide, by decide, by decide, by decide⟩

/-- C2 amended: isSafeBinUsage returns false whenever the host process
platform is Windows, regardless of safe-bin membership, trusted resolved
path, or argv validity; the caller-passed simulated platform plays no
part in this check. -/
theorem c2_amended_host_windows_denies (ext : Externals) (pp : String)
    (argv : List String) (res : Option CommandResolution) (sb : List String)
    (cwd : Option String) (fe : Option (String → Bool)) (tdirs : Option (List String))
    (h : ext.isWindowsPlatform (some pp) = true) :
    isSafeBinUsage ext pp argv res sb cwd fe tdirs = false := by
  simp [isSafeBinUsage, h]

/-- Witness for the amended C2: on a win32 host process, a matching bin
with trusted path and valid argv is still denied. -/
theorem c2_amended_witness :
    isSafeBinUsage cExtA "win32" ["head", "-n", "5"] (some headRes) ["head"]
      none none none = false :=
  c2_amended_host_windows_denies cExtA "win32" ["head", "-n", "5"] (some headRes)
    ["head"] none none none (by decide)

/-- C3 counterexample: with no chains field, a denied pipeline still
reports the allowlist match of its earlier satisfied segment, so matches
are not restricted to satisfied evaluation units. -/
theorem c3_counterexample :
    (evaluateExecAllowlist cExtB "linux" pUnchained).allowlistSatisfied = false ∧
    (evaluateExecAllowlist cExtB "linux" pUnchained).allowlistMatches = [gitEntry] ∧
    (evaluateExecAllowlist cExtB "linux" pUnchained).segmentSatisfiedBy
      = [some SatBy.allowlist, none] :=
  ⟨by decide, by decide, by decide⟩

/-- C3 amended: when chains are present, a denial discards all
accumulated matches and attributions, so reported matches come only from
runs in which every chain part was satisfied; when chains are absent,
evaluateExecAllowlist reports the matches accumulated during the scan of
the single pipeline even when the result is a denial. -/
theorem c3_amended_matches_reporting :
    (∀ (ext : Externals) (pp : String) (p : ExecEvalParams)
        (cs : List (List ExecCommandSegment)),
      p.analysis.chains = some cs →
      (evaluateExecAllowlist ext pp p).allowlistSatisfied = false →
      (evaluateExecAllowlist ext pp p).allowlistMatches = [] ∧
      (evaluateExecAllowlist ext pp p).segmentSatisfiedBy = []) ∧
    (∀ (ext : Externals) (pp : String) (p : ExecEvalParams),
      p.analysis.chains = none → p.analysis.ok = true → p.analysis.segments ≠ [] →
      (evaluateExecAllowlist ext pp p).allowlistMatches =
        (evaluateSegments ext pp p.toSegParams p.analysis.segments).foundMatches) := by
  constructor
  · intro ext pp p cs hch hsat
    by_cases hok : p.analysis.ok = true
    · by_cases hne : p.analysis.segments = []
      · constructor <;> simp [evaluateExecAllowlist, hne]
      · cases hev : evalChains ext pp p.toSegParams cs with
        | some pair =>
          exfalso
          obtain ⟨ms, sbs⟩ := pair
          simp [evaluateExecAllowlist, hok, hne, hch, hev] at hsat
        | none =>
          constructor <;> simp [evaluateExecAllowlist, hok, hne, hch, hev]
    · have hok2 : p.analysis.ok = false := by revert hok; cases p.analysis.ok <;> simp
      constructor <;> simp [evaluateExecAllowlist, hok2]
  · intro ext pp p hch hok hne
    simp [evaluateExecAllowlist, hch, hok, hne]

/-- Witness for the amended C3: the chained denial of the git and curl
parts reports no matches and no attributions. -/
theorem c3_amended_witness :
    (evaluateExecAllowlist cExtB "linux" pChained).allowlistMatches = [] ∧
    (evaluateExecAllowlist cExtB "linux" pChained).segmentSatisfiedBy = [] :=
  c3_amended_matches_reporting.1 cExtB "linux" pChained [[gitSeg], [curlSeg]] rfl (by decide)

/-- C4: a failed analysis or an empty segment list makes
evaluateExecAllowlist deny immediately with empty matches and
attributions. -/
theorem c4_analysis_failure_denies (ext : Externals) (pp : String) (p : ExecEvalParams)
    (h : p.analysis.ok = false ∨ p.analysis.segments = []) :
    evaluateExecAllowlist ext pp p = ⟨false, [], []⟩ := by
  rcases h with h | h <;> simp [evaluateExecAllowlist, h]

/-- Witness for C4: a concrete failed analysis is denied with empty
diagnostics. -/
theorem c4_witness : evaluateExecAllowlist cExtB "linux" pFailedAnalysis = ⟨false, [], []⟩ :=
  c4_analysis_failure_denies cExtB "linux" pFailedAnalysis (Or.inl rfl)

/-- C10: with ok analysis, non-empty segments and a present but empty
chains list, evaluateExecAllowlist returns satisfied with empty matches
and attributions, for every choice of externals, allowlist and safe-bin
configuration: no segment is ever validated. -/
theorem c10_empty_chains_satisfied (ext : Externals) (pp : String) (p : ExecEvalParams)
    (hok : p.analysis.ok = true) (hne : p.analysis.segments ≠ [])
    (hch : p.analysis.chains = some []) :
    evaluateExecAllowlist ext pp p = ⟨true, [], []⟩ := by
  simp [evaluateExecAllowlist, hok, hne, hch, evalChains]

/-- Witness for C10: a concrete analysis with one segment and an empty
chains list is auto-approved without validation. -/
theorem c10_witness : evaluateExecAllowlist cExtA "linux" pEmptyChains = ⟨true, [], []⟩ :=
  c10_empty_chains_satisfied cExtA "linux" pEmptyChains rfl (by decide) rfl

/-- C5: validateSafeBinArgv admits only safe literals in positional
position and as consumed flag values: the safe-literal predicate
coincides with the characterization in the claim (empty, stdin dash, or
neither glob-like nor path-like after trimming), and whenever
validateSafeBinArgv accepts, every collected positional token and every
consumed flag value is a safe literal, so any unsafe one forces
rejection; the concrete examples of the claim evaluate as stated. -/
theorem c5_safe_literal_admissibility :
    (∀ t, isSafeLiteralToken t = specSafeLiteralToken t) ∧
    (∀ args profile, validateSafeBinArgv args profile = true →
      ∃ ps vs, scanSafeBinArgs profile.valueFlags profile.blockedFlags args = some (ps, vs) ∧
        (∀ t ∈ ps, isSafeLiteralToken t = true) ∧ (∀ t ∈ vs, isSafeLiteralToken t = true)) ∧
    validateSafeBinArgv ["-n", "5"] headProfile = true ∧
    validateSafeBinArgv ["-n", "./etc/passwd"] headProfile = false ∧
    validateSafeBinArgv ["a*.txt"] SAFE_BIN_GENERIC_PROFILE = false := by
  refine ⟨isSafeLiteralToken_eq_spec, ?_, by decide, by decide, by decide⟩
  intro args profile hv
  unfold validateSafeBinArgv at hv
  cases hscan : scanSafeBinArgs profile.valueFlags profile.blockedFlags args with
  | none => rw [hscan] at hv; simp at hv
  | some pr =>
    obtain ⟨ps, vs⟩ := pr
    obtain ⟨A, B⟩ := scanSafeBinArgs_safe profile.valueFlags profile.blockedFlags args ps vs hscan
    exact ⟨ps, vs, rfl, A, B⟩

/-- Witness for C5: the accepted head invocation with a consumed value
has all collected tokens safe. -/
theorem c5_witness :
    ∃ ps vs,
      scanSafeBinArgs headProfile.valueFlags headProfile.blockedFlags ["-n", "5"]
        = some (ps, vs) ∧
      (∀ t ∈ ps, isSafeLiteralToken t = true) ∧ (∀ t ∈ vs, isSafeLiteralToken t = true) :=
  c5_safe_literal_admissibility.2.1 ["-n", "5"] headProfile (by decide)

/-- C6: for every profile and argv, whenever the scanner processes a
token in flag position (anywhere in the argument vector, not only at
its head) whose long-flag name, taken before any inline equals value,
is blocked, or whose short-flag cluster contains a blocked character
before any value-flag character is reached, validateSafeBinArgv
returns false; the wc example of the claim evaluates as stated, also
with the blocked flag preceded by other arguments. Tokens after the
double-dash terminator and tokens consumed as flag values are not
flags and are outside flag position. -/
theorem c6_blocked_flags_reject :
    (∀ (profile : SafeBinProfile) (args : List String) (token : String),
      token ∈ flagTokens profile.valueFlags profile.blockedFlags args →
      isBlockedLongFlagToken profile.blockedFlags token = true ∨
      isBlockedClusterToken profile.valueFlags profile.blockedFlags token = true →
      validateSafeBinArgv args profile = false) ∧
    validateSafeBinArgv ["--files0-from", "list.txt"] wcProfile = false ∧
    validateSafeBinArgv ["hello", "--files0-from", "x"] wcProfile = false := by
  refine ⟨?_, by decide, by decide⟩
  intro profile args token hmem hblk
  have hnone := scanSafeBinArgs_none_of_blocked_flagToken profile.valueFlags
    profile.blockedFlags args token hmem hblk
  unfold validateSafeBinArgv
  rw [hnone]

/-- Witness for C6: the blocked long flag of wc rejects from a
non-head flag position, after a safe positional argument. -/
theorem c6_witness : validateSafeBinArgv ["hello", "--files0-from", "x"] wcProfile = false :=
  c6_blocked_flags_reject.1 wcProfile ["hello", "--files0-from", "x"] "--files0-from"
    (by decide) (Or.inl (by decide))

/-- C7: when the scan rejects no token, validateSafeBinArgv returns
false exactly when the positional count is below minPositional (default
zero) or above a bounded maxPositional; the tr examples of the claim
evaluate as stated. -/
theorem c7_positional_bounds :
    (∀ (args : List String) (profile : SafeBinProfile) (ps vs : List String),
      scanSafeBinArgs profile.valueFlags profile.blockedFlags args = some (ps, vs) →
      (validateSafeBinArgv args profile = false ↔
        ps.length < profile.minPositional.getD 0 ∨
        ∃ m, profile.maxPositional = some m ∧ m < ps.length)) ∧
    validateSafeBinArgv ["x", "y"] trProfile = true ∧
    validateSafeBinArgv [] trProfile = false := by
  refine ⟨?_, by decide, by decide⟩
  intro args profile ps vs hscan
  simp only [validateSafeBinArgv, hscan]
  by_cases hmin : ps.length < profile.minPositional.getD 0
  · simp [hmin]
  · rw [if_neg hmin]
    cases hmax : profile.maxPositional with
    | none => simp [hmin]
    | some m => simp [hmin, Nat.not_le]

/-- Witness for C7: the empty tr invocation is rejected purely by the
minimum positional bound. -/
theorem c7_witness : validateSafeBinArgv [] trProfile = false :=
  (c7_positional_bounds.1 [] trProfile [] [] (by decide)).mpr (Or.inl (by decide))

/-- C8 counterexample: two runs of evaluateShellAllowlist with identical
declared parameters and identical external collaborators, differing only
in the ambient process platform, produce different decisions; the result
therefore depends on an input outside the declared tuple. -/
theorem c8_counterexample :
    (evaluateShellAllowlist cExtA "linux" pNoPlat).allowlistSatisfied = true ∧
    (evaluateShellAllowlist cExtA "win32" pNoPlat).allowlistSatisfied = false :=
  ⟨by decide, by decide⟩

/-- C8 amended: evaluateShellAllowlist is deterministic in its declared
parameters, the external collaborators, and the ambient process
platform; the process platform influences the result only through the
Windows-platform test and the literal win32 comparison inside
isSafeBinUsage. -/
theorem c8_amended_determinism (ext : Externals) (pp1 pp2 : String) (p : ShellEvalParams)
    (h1 : ext.isWindowsPlatform (some pp1) = ext.isWindowsPlatform (some pp2))
    (h2 : (pp1 == "win32") = (pp2 == "win32")) :
    evaluateShellAllowlist ext pp1 p = evaluateShellAllowlist ext pp2 p :=
  evaluateShellAllowlist_platform_congr ext pp1 pp2 h1 h2 p

/-- Witness for the amended C8: linux and darwin hosts with the same
parameters and collaborators give the same decision. -/
theorem c8_amended_witness :
    evaluateShellAllowlist cExtA "linux" pNoPlat = evaluateShellAllowlist cExtA "darwin" pNoPlat :=
  c8_amended_determinism cExtA "linux" "darwin" pNoPlat (by decide) (by decide)

/-- C9: resolveSafeBins on an undefined argument normalizes the external
default list; on any other argument, null included, it normalizes that
argument directly, so null yields the empty set; and normalizeSafeBins
trims and lowercases entries, drops entries that become empty, and
yields the empty set on non-array input. -/
theorem c9_resolve_normalize_safe_bins :
    (∀ defaults, resolveSafeBins defaults SafeBinsArg.undef = normalizeSafeBins (some defaults)) ∧
    (∀ defaults, resolveSafeBins defaults SafeBinsArg.null = []) ∧
    normalizeSafeBins none = [] ∧
    (∀ es x, x ∈ normalizeSafeBins (some es) ↔
      x ≠ "" ∧ ∃ e ∈ es, toLowerStr (trimStr e) = x) := by
  refine ⟨fun _ => rfl, fun _ => rfl, rfl, ?_⟩
  intro es x
  simp only [normalizeSafeBins, List.mem_dedup, List.mem_filter, List.mem_map]
  constructor
  · rintro ⟨⟨e, he, rfl⟩, hne⟩
    exact ⟨by simpa using hne, e, he, rfl⟩
  · rintro ⟨hne, e, he, rfl⟩
    exact ⟨⟨e, he, rfl⟩, by simpa using hne⟩
example : validateSafeBinArgv ["-n", "5"] headProfile = true := by decide
example : validateSafeBinArgv ["-n", "./etc/passwd"] headProfile = false := by decide
example : validateSafeBinArgv ["a*.txt"] SAFE_BIN_GENERIC_PROFILE = false := by decide
example : validateSafeBinArgv ["x", "y"] trProfile = true := by decide
example : validateSafeBinArgv [] trProfile = false := by decide
example : validateSafeBinArgv ["--files0-from", "list.txt"] wcProfile = false := by decide
example : validateSafeBinArgv ["-e", "foo"] grepProfile = true := by decide
example : validateSafeBinArgv ["-r", "secret", "."] grepProfile = false := by decide
example : toLowerStr (trimStr " JQ ") = "jq" := by decide


example : isSafeBinUsage cExtA "linux" ["head", "-n", "5"] (some headRes) ["head"]
    none none none = true := by decide
example : (evaluateShellAllowlist cExtA "linux" pSimWin).allowlistSatisfied = true := by decide
example : (evaluateShellAllowlist cExtA "linux" pSimWin).segmentSatisfiedBy
    = [some SatBy.safeBins] := by decide
example : (evaluateShellAllowlist cExtA "linux" pNoPlat).allowlistSatisfied = true := by decide
example : (evaluateShellAllowlist cExtA "win32" pNoPlat).allowlistSatisfied = false := by decide
example : evaluateExecAllowlist cExtB "linux" pChained = ⟨false, [], []⟩ := by decide
example : evaluateExecAllowlist cExtB "linux" pUnchained
    = ⟨false, [gitEntry], [some SatBy.allowlist, none]⟩ := by decide

example : flagTokens wcProfile.valueFlags wcProfile.blockedFlags
    ["hello", "--files0-from", "x"] = ["--files0-from"] := by decide
example : flagTokens grepProfile.valueFlags grepProfile.blockedFlags
    ["-e", "-r"] = ["-e"] := by decide
example : flagTokens grepProfile.valueFlags grepProfile.blockedFlags
    ["-e", "pat", "-r"] = ["-e", "-r"] := by decide
example : flagTokens grepProfile.valueFlags grepProfile.blockedFlags
    ["--", "-r"] = [] := by decide
example : validateSafeBinArgv ["-ar", "x"] grepProfile = false := by decide
